import Mathlib

/-!
# Bidding war: the `POST /bid` handler of `src/api/index.js`

A shallow embedding of the single request handler of the repository.  The
handler is straight-line JavaScript with two `await` points; it is embedded as
a function from the request and the replies of the outside world to the list of
effects it performs together with the way it ends.

* The request is `req.body`, a parsed JSON object, read field by field.
* The outside world is `Network`: what `bidding.bid(...)` answers and what
  `tx.wait()` answers.  Both are calls into the `ethers` library; the handler
  only sees whether the promise resolves, rejects, or stays pending.
* `res.send` and `console.log` are recorded as events with their argument
  lists, exactly as the handler passes them.
-/

namespace BiddingWar

/-- JavaScript values that can sit in a field of the parsed JSON body.  Numbers
are the integer ones (amounts are base-unit integers); arrays and nested
objects are kept as their raw text, the handler never looks inside them. -/
inductive JsValue where
  | undefined
  | null
  | bool (b : Bool)
  | num (n : Int)
  | str (s : String)
  | object (raw : String)
  deriving DecidableEq, Repr

/-- Strict equality `===`, the comparison a `switch` statement uses: no
coercion between types; an object parsed from the body is never identical to
another value. -/
def strictEq : JsValue → JsValue → Bool
  | .undefined, .undefined => true
  | .null, .null => true
  | .bool a, .bool b => a == b
  | .num a, .num b => a == b
  | .str a, .str b => a == b
  | _, _ => false

/-- The parsed body `req.body`: the fields of a JSON object. -/
abbrev Body := List (String × JsValue)

/-- Property read `body.name`: `undefined` when the field is absent. -/
def getField (body : Body) (name : String) : JsValue :=
  match body.lookup name with
  | some v => v
  | none => .undefined

/-- The three wallets built at start-up, lines 12-14. -/
inductive Signer where
  | signer_1
  | signer_2
  | signer_3
  deriving DecidableEq, Repr

/-- An `ethers.Contract` object: target address and the signer it is bound to
(the ABI is the same constant in every branch). -/
structure Contract where
  address : String
  signer : Signer
  deriving DecidableEq, Repr

/-- The argument object of `bidding.bid(...)` together with the contract it is
invoked on. -/
structure BidCall where
  contract : Contract
  value : JsValue
  gasLimit : Nat
  deriving DecidableEq, Repr

/-- The transaction response `tx` that a resolved `bidding.bid(...)` yields. -/
structure TxResponse where
  hash : String
  deriving DecidableEq, Repr

/-- How the promise of `tx.wait()` behaves: it resolves, it rejects with a
reason, or it never settles (the call passes no timeout). -/
inductive WaitResult where
  | mined
  | failed (reason : String)
  | never
  deriving DecidableEq, Repr

/-- The replies of the outside world to the two awaited calls. -/
structure Network where
  bid : BidCall → Except String TxResponse
  wait : TxResponse → WaitResult

/-- An error value raised inside the handler. -/
inductive JsError where
  | typeError (msg : String)
  | lib (reason : String)
  deriving DecidableEq, Repr

/-- The effects of the handler, in program order. -/
inductive Event where
  | send (args : List JsValue)
  | readAmount (v : JsValue)
  | bidCall (c : BidCall)
  | waitStart (tx : TxResponse)
  | log (args : List JsValue)
  deriving DecidableEq, Repr

/-- How a run of the async handler ends: its promise resolves, rejects with an
error, or stays suspended at an `await` for ever. -/
inductive Outcome where
  | returned
  | threw (e : JsError)
  | pending
  deriving DecidableEq, Repr

/-- A run: the effects performed and the way the run ended. -/
structure Run where
  events : List Event
  outcome : Outcome
  deriving DecidableEq, Repr

/-- The address literal of lines 21, 28 and 35. -/
def contractAddress : String := "0x1d370423be52f9424b11163162F78f2e912C4907"

/-- The `switch (req.body.userNumber)` statement, lines 18-42.  The result is
the value of `bidding` after the statement (`none` for a variable still
`undefined`) and the effects of the branch taken.  The `default` branch only
sends; control then leaves the `switch` like in the other branches. -/
def switchUserNumber (userNumber : JsValue) : Option Contract × List Event :=
  if strictEq userNumber (.str "1") then
    (some ⟨contractAddress, .signer_1⟩, [])
  else if strictEq userNumber (.str "2") then
    (some ⟨contractAddress, .signer_2⟩, [])
  else if strictEq userNumber (.str "3") then
    (some ⟨contractAddress, .signer_3⟩, [])
  else
    (none, [.send [.str "unknown user"]])

/-- The message of the error raised by a member access on `undefined`. -/
def undefinedBidMessage : String :=
  "Cannot read properties of undefined (reading bid)"

/-- Lines 43-49 of the handler, run with the value of `bidding` left by the
`switch`. -/
def afterSwitch (net : Network) (body : Body) (bidding : Option Contract) : Run :=
  let amount := getField body "amount"
  match bidding with
  | none => ⟨[.readAmount amount], .threw (.typeError undefinedBidMessage)⟩
  | some c =>
    let call : BidCall := ⟨c, amount, 1000000⟩
    match net.bid call with
    | .error r => ⟨[.readAmount amount, .bidCall call], .threw (.lib r)⟩
    | .ok tx =>
      match net.wait tx with
      | .never => ⟨[.readAmount amount, .bidCall call, .waitStart tx], .pending⟩
      | .failed r =>
        ⟨[.readAmount amount, .bidCall call, .waitStart tx], .threw (.lib r)⟩
      | .mined =>
        ⟨[.readAmount amount, .bidCall call, .waitStart tx,
          .log [.str "hash is ", .str tx.hash],
          .send [.str "bidding successful. tx hash: ", .str tx.hash]],
         .returned⟩

/-- The handler registered by `app.post("/bid", ...)`, lines 16-50. -/
def handler (net : Network) (body : Body) : Run :=
  let sw := switchUserNumber (getField body "userNumber")
  let rest := afterSwitch net body sw.1
  ⟨sw.2 ++ rest.events, rest.outcome⟩

/-- The body argument of a `res.send` call: `res.send(body)` has one
parameter, the response body; further arguments are not part of it. -/
def Event.sentBody : Event → Option JsValue
  | .send (b :: _) => some b
  | _ => none

def Event.isSend : Event → Bool
  | .send _ => true
  | _ => false

def Event.isBidCall : Event → Bool
  | .bidCall _ => true
  | _ => false

def Event.isWaitStart : Event → Bool
  | .waitStart _ => true
  | _ => false

/-- The identifiers with a `case` of their own in the `switch`. -/
def configured (userNumber : JsValue) : Prop :=
  userNumber = .str "1" ∨ userNumber = .str "2" ∨ userNumber = .str "3"

instance (v : JsValue) : Decidable (configured v) := by
  unfold configured; infer_instance

/-- A network that accepts every bid with the given hash and whose wait ends
as given. -/
def acceptingNet (hash : String) (w : WaitResult) : Network :=
  ⟨fun _ => .ok ⟨hash⟩, fun _ => w⟩

/-- A network that refuses every bid with the given reason. -/
def rejectingNet (reason : String) : Network :=
  ⟨fun _ => .error reason, fun _ => .never⟩

/-- The reply of the outside world to the bid call of the handler, when the
`switch` left a contract in `bidding`. -/
def submission (net : Network) (body : Body) : Option (Except String TxResponse) :=
  (switchUserNumber (getField body "userNumber")).1.map
    fun c => net.bid ⟨c, getField body "amount", 1000000⟩

/-- The signer the `switch` binds the contract to, if any. -/
def selectedSigner (userNumber : JsValue) : Option Signer :=
  (switchUserNumber userNumber).1.map Contract.signer

/-! ## Auxiliary facts -/

theorem strictEq_str (v : JsValue) (s : String) :
    strictEq v (.str s) = true ↔ v = .str s := by
  cases v <;> simp [strictEq]

theorem switch_unknown {v : JsValue} (h : ¬ configured v) :
    switchUserNumber v = (none, [.send [.str "unknown user"]]) := by
  simp only [configured, not_or] at h
  obtain ⟨h1, h2, h3⟩ := h
  have e1 : strictEq v (.str "1") = false := by
    rw [← Bool.not_eq_true, strictEq_str]; exact h1
  have e2 : strictEq v (.str "2") = false := by
    rw [← Bool.not_eq_true, strictEq_str]; exact h2
  have e3 : strictEq v (.str "3") = false := by
    rw [← Bool.not_eq_true, strictEq_str]; exact h3
  simp [switchUserNumber, e1, e2, e3]

theorem switch_configured {v : JsValue} (h : configured v) :
    ∃ s, switchUserNumber v = (some ⟨contractAddress, s⟩, []) := by
  rcases h with h | h | h <;> subst h
  · exact ⟨.signer_1, by decide⟩
  · exact ⟨.signer_2, by decide⟩
  · exact ⟨.signer_3, by decide⟩

theorem handler_unknown (net : Network) (body : Body)
    (h : ¬ configured (getField body "userNumber")) :
    handler net body =
      ⟨[.send [.str "unknown user"], .readAmount (getField body "amount")],
       .threw (.typeError undefinedBidMessage)⟩ := by
  simp [handler, switch_unknown h, afterSwitch]

theorem handler_configured (net : Network) (body : Body)
    (h : configured (getField body "userNumber")) :
    ∃ s, switchUserNumber (getField body "userNumber") = (some ⟨contractAddress, s⟩, []) ∧
      handler net body = afterSwitch net body (some ⟨contractAddress, s⟩) := by
  obtain ⟨s, hs⟩ := switch_configured h
  exact ⟨s, hs, by simp [handler, hs]⟩

/-- The four ways the rest of the handler can run once a contract is bound. -/
theorem afterSwitch_some (net : Network) (body : Body) (c : Contract) :
    (∃ r, net.bid ⟨c, getField body "amount", 1000000⟩ = .error r ∧
      afterSwitch net body (some c) =
        ⟨[.readAmount (getField body "amount"),
          .bidCall ⟨c, getField body "amount", 1000000⟩], .threw (.lib r)⟩) ∨
    (∃ tx, net.bid ⟨c, getField body "amount", 1000000⟩ = .ok tx ∧
      net.wait tx = .never ∧
      afterSwitch net body (some c) =
        ⟨[.readAmount (getField body "amount"),
          .bidCall ⟨c, getField body "amount", 1000000⟩, .waitStart tx], .pending⟩) ∨
    (∃ tx r, net.bid ⟨c, getField body "amount", 1000000⟩ = .ok tx ∧
      net.wait tx = .failed r ∧
      afterSwitch net body (some c) =
        ⟨[.readAmount (getField body "amount"),
          .bidCall ⟨c, getField body "amount", 1000000⟩, .waitStart tx],
         .threw (.lib r)⟩) ∨
    (∃ tx, net.bid ⟨c, getField body "amount", 1000000⟩ = .ok tx ∧
      net.wait tx = .mined ∧
      afterSwitch net body (some c) =
        ⟨[.readAmount (getField body "amount"),
          .bidCall ⟨c, getField body "amount", 1000000⟩, .waitStart tx,
          .log [.str "hash is ", .str tx.hash],
          .send [.str "bidding successful. tx hash: ", .str tx.hash]], .returned⟩) := by
  cases hb : net.bid ⟨c, getField body "amount", 1000000⟩ with
  | error r => left; exact ⟨r, rfl, by simp [afterSwitch, hb]⟩
  | ok tx =>
    right
    cases hw : net.wait tx with
    | never => left; exact ⟨tx, rfl, hw, by simp [afterSwitch, hb, hw]⟩
    | failed r => right; left; exact ⟨tx, r, rfl, hw, by simp [afterSwitch, hb, hw]⟩
    | mined => right; right; exact ⟨tx, rfl, hw, by simp [afterSwitch, hb, hw]⟩

/-! ## Identifier resolution -/

/-- C1: for every `userNumber` that is not exactly one of the strings "1", "2",
"3", the handler sends the "unknown user" response and performs no network
interaction: its effects are that one send followed by the read of the amount,
none of them a bid call or a confirmation wait. -/
theorem unknown_identifier_no_network (net : Network) (body : Body)
    (h : ¬ configured (getField body "userNumber")) :
    (handler net body).events.head? = some (.send [.str "unknown user"]) ∧
    (∀ e ∈ (handler net body).events, e.isBidCall = false ∧ e.isWaitStart = false) ∧
    (handler net body).outcome ≠ .returned := by
  rw [handler_unknown net body h]
  refine ⟨rfl, ?_, by simp⟩
  intro e he
  simp at he
  rcases he with he | he <;> subst he <;> exact ⟨rfl, rfl⟩

/-- The empty string, a missing field, "01", " 1" and the number 1 are all
unknown identifiers: each run sends "unknown user" and touches no network. -/
theorem unknown_identifier_no_network_witness :
    (¬ configured (getField [("userNumber", .str "")] "userNumber") ∧
     ¬ configured (getField [("amount", .num 5)] "userNumber") ∧
     ¬ configured (getField [("userNumber", .str "01")] "userNumber") ∧
     ¬ configured (getField [("userNumber", .str " 1")] "userNumber") ∧
     ¬ configured (getField [("userNumber", .num 1)] "userNumber")) ∧
    ((handler (acceptingNet "0xabc" .mined) [("userNumber", .num 1)]).events.head?
        = some (.send [.str "unknown user"]) ∧
     (∀ e ∈ (handler (acceptingNet "0xabc" .mined) [("userNumber", .num 1)]).events,
        e.isBidCall = false ∧ e.isWaitStart = false) ∧
     (handler (acceptingNet "0xabc" .mined) [("userNumber", .num 1)]).outcome
        ≠ .returned) :=
  ⟨by decide,
   unknown_identifier_no_network (acceptingNet "0xabc" .mined)
     [("userNumber", .num 1)] (by decide)⟩

/-- C2: identifier resolution is an exact-match mapping: "1" selects
`signer_1`, "2" selects `signer_2`, "3" selects `signer_3`, the three signers
are pairwise different, no other value selects a signer (so nothing is
normalised before the comparison), and the signer of every bid call the handler
makes is the one selected by `userNumber` alone, whatever the network and the
other fields are. -/
theorem resolution_exact_match :
    selectedSigner (.str "1") = some .signer_1 ∧
    selectedSigner (.str "2") = some .signer_2 ∧
    selectedSigner (.str "3") = some .signer_3 ∧
    Signer.signer_1 ≠ .signer_2 ∧ Signer.signer_1 ≠ .signer_3 ∧
    Signer.signer_2 ≠ .signer_3 ∧
    (∀ v s, selectedSigner v = some s ↔
      (v = .str "1" ∧ s = .signer_1) ∨ (v = .str "2" ∧ s = .signer_2) ∨
      (v = .str "3" ∧ s = .signer_3)) ∧
    (∀ net body c, Event.bidCall c ∈ (handler net body).events →
      selectedSigner (getField body "userNumber") = some c.contract.signer) := by
  refine ⟨by decide, by decide, by decide, by decide, by decide, by decide, ?_, ?_⟩
  · intro v s
    by_cases hc : configured v
    · rcases hc with h | h | h <;> subst h
      · have : selectedSigner (.str "1") = some .signer_1 := by decide
        rw [this]; simp; exact eq_comm
      · have : selectedSigner (.str "2") = some .signer_2 := by decide
        rw [this]; simp; exact eq_comm
      · have : selectedSigner (.str "3") = some .signer_3 := by decide
        rw [this]; simp; exact eq_comm
    · have hn : selectedSigner v = none := by simp [selectedSigner, switch_unknown hc]
      rw [hn]
      simp only [configured, not_or] at hc
      obtain ⟨h1, h2, h3⟩ := hc
      simp [h1, h2, h3]
  · intro net body c hc
    by_cases hid : configured (getField body "userNumber")
    · obtain ⟨s, hs, hh⟩ := handler_configured net body hid
      rw [hh] at hc
      have hsel : selectedSigner (getField body "userNumber") = some s := by
        simp [selectedSigner, hs]
      rw [hsel]
      rcases afterSwitch_some net body ⟨contractAddress, s⟩ with
        ⟨r, _, e⟩ | ⟨tx, _, _, e⟩ | ⟨tx, r, _, _, e⟩ | ⟨tx, _, _, e⟩ <;>
      · rw [e] at hc
        simp at hc
        subst hc
        rfl
    · rw [handler_unknown net body hid] at hc
      simp at hc

/-! ## The bid call -/

theorem submission_configured (net : Network) (body : Body) (s : Signer)
    (hs : switchUserNumber (getField body "userNumber") = (some ⟨contractAddress, s⟩, [])) :
    submission net body =
      some (net.bid ⟨⟨contractAddress, s⟩, getField body "amount", 1000000⟩) := by
  simp [submission, hs]

/-- C3, as stated, fails: with identifier "2" and amount -1 the handler does
invoke the bid entry point, passing -1 as the value; the failure of the run is
the one the library raises, after the call. -/
theorem negative_amount_reaches_bid :
    (handler (rejectingNet "unsigned value cannot be negative")
        [("userNumber", .str "2"), ("amount", .num (-1))]) =
      ⟨[.readAmount (.num (-1)),
        .bidCall ⟨⟨contractAddress, .signer_2⟩, .num (-1), 1000000⟩],
       .threw (.lib "unsigned value cannot be negative")⟩ ∧
    ¬ (∀ e ∈ (handler (rejectingNet "unsigned value cannot be negative")
        [("userNumber", .str "2"), ("amount", .num (-1))]).events,
        e.isBidCall = false) := by
  decide

/-- C3, amended: for every configured identifier and every negative amount the
handler validates nothing itself: the first two effects are the read of the
amount and one bid call carrying that negative amount as its value with gas
limit 1000000, the bid entry point is invoked exactly once, and whenever the
run fails the error is the reason the library gave for refusing the submission
or for the failed wait. -/
theorem negative_amount_not_validated (net : Network) (body : Body) (n : Int)
    (hid : configured (getField body "userNumber"))
    (hamt : getField body "amount" = .num n) (_hneg : n < 0) :
    ∃ s, selectedSigner (getField body "userNumber") = some s ∧
      (handler net body).events.take 2 =
        [.readAmount (.num n), .bidCall ⟨⟨contractAddress, s⟩, .num n, 1000000⟩] ∧
      (handler net body).events.countP Event.isBidCall = 1 ∧
      (∀ e, (handler net body).outcome = .threw e →
        ∃ r, e = .lib r ∧
          (submission net body = some (.error r) ∨
           ∃ tx, submission net body = some (.ok tx) ∧ net.wait tx = .failed r)) := by
  obtain ⟨s, hs, hh⟩ := handler_configured net body hid
  have hsub := submission_configured net body s hs
  refine ⟨s, by simp [selectedSigner, hs], ?_⟩
  rw [hh, hsub]
  rcases afterSwitch_some net body ⟨contractAddress, s⟩ with
    ⟨r, hb, e⟩ | ⟨tx, hb, hw, e⟩ | ⟨tx, r, hb, hw, e⟩ | ⟨tx, hb, hw, e⟩
  · rw [e, hb, hamt]
    refine ⟨rfl, rfl, ?_⟩
    intro e he
    simp at he
    exact ⟨r, he.symm, Or.inl rfl⟩
  · rw [e, hb, hamt]
    refine ⟨rfl, rfl, ?_⟩
    intro e he
    simp at he
  · rw [e, hb, hamt]
    refine ⟨rfl, rfl, ?_⟩
    intro e he
    simp at he
    exact ⟨r, he.symm, Or.inr ⟨tx, rfl, hw⟩⟩
  · rw [e, hb, hamt]
    refine ⟨rfl, rfl, ?_⟩
    intro e he
    simp at he

/-- Identifier "2" with amount -1 against a network that accepts everything:
the bid call is made with value -1. -/
theorem negative_amount_not_validated_witness :
    configured (getField [("userNumber", .str "2"), ("amount", .num (-1))] "userNumber") ∧
    getField [("userNumber", .str "2"), ("amount", .num (-1))] "amount" = .num (-1) ∧
    (-1 : Int) < 0 ∧
    ∃ s, selectedSigner
          (getField [("userNumber", .str "2"), ("amount", .num (-1))] "userNumber") = some s ∧
      (handler (acceptingNet "0xabc" .mined)
          [("userNumber", .str "2"), ("amount", .num (-1))]).events.take 2 =
        [.readAmount (.num (-1)),
         .bidCall ⟨⟨contractAddress, s⟩, .num (-1), 1000000⟩] ∧
      (handler (acceptingNet "0xabc" .mined)
          [("userNumber", .str "2"), ("amount", .num (-1))]).events.countP
            Event.isBidCall = 1 ∧
      (∀ e, (handler (acceptingNet "0xabc" .mined)
          [("userNumber", .str "2"), ("amount", .num (-1))]).outcome = .threw e →
        ∃ r, e = .lib r ∧
          (submission (acceptingNet "0xabc" .mined)
              [("userNumber", .str "2"), ("amount", .num (-1))] = some (.error r) ∨
           ∃ tx, submission (acceptingNet "0xabc" .mined)
              [("userNumber", .str "2"), ("amount", .num (-1))] = some (.ok tx) ∧
            (acceptingNet "0xabc" .mined).wait tx = .failed r)) :=
  ⟨by decide, by decide, by decide,
   negative_amount_not_validated (acceptingNet "0xabc" .mined)
     [("userNumber", .str "2"), ("amount", .num (-1))] (-1)
     (by decide) (by decide) (by decide)⟩

/-- C4: for every configured identifier and every amount the handler makes
exactly one bid call; it targets the address
0x1d370423be52f9424b11163162F78f2e912C4907, carries the amount of the request
unchanged as its value and the gas limit 1000000. -/
theorem bid_call_fixed_address_and_gas (net : Network) (body : Body)
    (hid : configured (getField body "userNumber")) :
    ∃ s, (handler net body).events.filter Event.isBidCall =
      [.bidCall ⟨⟨"0x1d370423be52f9424b11163162F78f2e912C4907", s⟩,
        getField body "amount", 1000000⟩] := by
  obtain ⟨s, _, hh⟩ := handler_configured net body hid
  refine ⟨s, ?_⟩
  rw [hh]
  rcases afterSwitch_some net body ⟨contractAddress, s⟩ with
    ⟨r, _, e⟩ | ⟨tx, _, _, e⟩ | ⟨tx, r, _, _, e⟩ | ⟨tx, _, _, e⟩ <;>
  · rw [e]
    simp [List.filter, Event.isBidCall, contractAddress]

/-- Scenario A: identifier "1", amount 500000000000000000. -/
theorem bid_call_fixed_address_and_gas_witness :
    configured (getField
      [("userNumber", .str "1"), ("amount", .num 500000000000000000)] "userNumber") ∧
    ∃ s, (handler (acceptingNet "0xabc" .mined)
        [("userNumber", .str "1"), ("amount", .num 500000000000000000)]).events.filter
          Event.isBidCall =
      [.bidCall ⟨⟨"0x1d370423be52f9424b11163162F78f2e912C4907", s⟩,
        getField [("userNumber", .str "1"), ("amount", .num 500000000000000000)] "amount",
        1000000⟩] :=
  ⟨by decide,
   bid_call_fixed_address_and_gas (acceptingNet "0xabc" .mined)
     [("userNumber", .str "1"), ("amount", .num 500000000000000000)] (by decide)⟩

/-! ## Responses and failures -/

/-- C5, evaluated on scenario A: after the submission is accepted and the wait
completes, the handler calls `res.send` with two arguments, the fixed text and
the hash.  The body argument is the fixed text "bidding successful. tx hash: "
alone; it is the same for two different hashes, so the hash is not part of
it. -/
theorem success_send_body_lacks_hash :
    (handler (acceptingNet "0xabc" .mined)
        [("userNumber", .str "1"), ("amount", .num 500000000000000000)]).events.filter
          Event.isSend =
      [.send [.str "bidding successful. tx hash: ", .str "0xabc"]] ∧
    ((handler (acceptingNet "0xabc" .mined)
        [("userNumber", .str "1"), ("amount", .num 500000000000000000)]).events.filter
          Event.isSend).map Event.sentBody =
      [some (.str "bidding successful. tx hash: ")] ∧
    ((handler (acceptingNet "0xdef" .mined)
        [("userNumber", .str "1"), ("amount", .num 500000000000000000)]).events.filter
          Event.isSend).map Event.sentBody =
      [some (.str "bidding successful. tx hash: ")] := by
  decide

/-- C6, as stated, fails: with identifier "3", amount 7 and a submission
refused for "insufficient funds", the handler calls `res.send` not once, so
nothing is reported to the caller; the run ends with the uncaught error, and
that outcome is the very one of a run whose submission is accepted and whose
wait fails for the same reason, so it carries no classification of its own. -/
theorem rejected_submission_sends_nothing :
    handler (rejectingNet "insufficient funds")
        [("userNumber", .str "3"), ("amount", .num 7)] =
      ⟨[.readAmount (.num 7),
        .bidCall ⟨⟨contractAddress, .signer_3⟩, .num 7, 1000000⟩],
       .threw (.lib "insufficient funds")⟩ ∧
    (handler (rejectingNet "insufficient funds")
        [("userNumber", .str "3"), ("amount", .num 7)]).events.filter Event.isSend = [] ∧
    (handler (rejectingNet "insufficient funds")
        [("userNumber", .str "3"), ("amount", .num 7)]).outcome =
      (handler (acceptingNet "0xabc" (.failed "insufficient funds"))
        [("userNumber", .str "3"), ("amount", .num 7)]).outcome := by
  decide

/-- C6, amended: for every configured identifier and amount, if the submission
is refused with reason `r`, the handler sends no response at all; its run ends
by raising the error of the library with `r` unchanged, uncaught, after the
read of the amount and the one bid call; no confirmation wait is started; and
the outcome equals that of any run on the same request whose submission is
accepted and whose wait fails with the same `r`. -/
theorem rejected_submission_raises_uncaught (net : Network) (body : Body) (r : String)
    (hid : configured (getField body "userNumber"))
    (hrej : submission net body = some (.error r)) :
    (handler net body).outcome = .threw (.lib r) ∧
    (handler net body).events.filter Event.isSend = [] ∧
    (∀ e ∈ (handler net body).events, e.isWaitStart = false) ∧
    (∃ s, (handler net body).events =
      [.readAmount (getField body "amount"),
       .bidCall ⟨⟨contractAddress, s⟩, getField body "amount", 1000000⟩]) ∧
    (∀ net2 tx, submission net2 body = some (.ok tx) → net2.wait tx = .failed r →
      (handler net2 body).outcome = (handler net body).outcome) := by
  obtain ⟨s, hs, hh⟩ := handler_configured net body hid
  rw [submission_configured net body s hs] at hrej
  simp only [Option.some.injEq] at hrej
  have hrun : handler net body =
      ⟨[.readAmount (getField body "amount"),
        .bidCall ⟨⟨contractAddress, s⟩, getField body "amount", 1000000⟩],
       .threw (.lib r)⟩ := by
    rw [hh]; simp [afterSwitch, hrej]
  rw [hrun]
  refine ⟨rfl, rfl, ?_, ⟨s, rfl⟩, ?_⟩
  · intro e he
    simp at he
    rcases he with he | he <;> subst he <;> rfl
  · intro net2 tx hsub hw
    obtain ⟨s2, hs2, hh2⟩ := handler_configured net2 body hid
    rw [submission_configured net2 body s2 hs2] at hsub
    simp only [Option.some.injEq] at hsub
    rw [hh2]
    simp [afterSwitch, hsub, hw]

/-- Scenario E: the network refuses with "insufficient funds". -/
theorem rejected_submission_raises_uncaught_witness :
    configured (getField [("userNumber", .str "3"), ("amount", .num 7)] "userNumber") ∧
    submission (rejectingNet "insufficient funds")
      [("userNumber", .str "3"), ("amount", .num 7)] = some (.error "insufficient funds") ∧
    (handler (rejectingNet "insufficient funds")
      [("userNumber", .str "3"), ("amount", .num 7)]).outcome
        = .threw (.lib "insufficient funds") ∧
    (handler (rejectingNet "insufficient funds")
      [("userNumber", .str "3"), ("amount", .num 7)]).events.filter Event.isSend = [] :=
  ⟨by decide, rfl,
   (rejected_submission_raises_uncaught (rejectingNet "insufficient funds")
     [("userNumber", .str "3"), ("amount", .num 7)] "insufficient funds"
     (by decide) rfl).1,
   (rejected_submission_raises_uncaught (rejectingNet "insufficient funds")
     [("userNumber", .str "3"), ("amount", .num 7)] "insufficient funds"
     (by decide) rfl).2.1⟩

/-- C7, as stated, fails: when the submission is accepted and the wait never
observes acceptance, the run does not fail at all; it stays suspended at the
wait, since `tx.wait()` is called without a timeout. -/
theorem unconfirmed_wait_does_not_fail :
    (handler (acceptingNet "0xabc" .never)
        [("userNumber", .str "1"), ("amount", .num 5)]).outcome = .pending ∧
    ¬ ∃ e, (handler (acceptingNet "0xabc" .never)
        [("userNumber", .str "1"), ("amount", .num 5)]).outcome = .threw e := by
  refine ⟨by decide, ?_⟩
  rintro ⟨e, he⟩
  have hp : (handler (acceptingNet "0xabc" .never)
      [("userNumber", .str "1"), ("amount", .num 5)]).outcome = .pending := by decide
  rw [hp] at he
  cases he

/-- C7, amended: for every configured identifier and amount, if the submission
is accepted and the wait never observes acceptance, the run stays pending for
ever, it sends nothing, and this outcome differs from the outcome of every run
on the same request whose submission is refused (that run fails with the
reason of the refusal). -/
theorem unconfirmed_wait_stays_pending (net : Network) (body : Body) (tx : TxResponse)
    (hid : configured (getField body "userNumber"))
    (hsub : submission net body = some (.ok tx)) (hw : net.wait tx = .never) :
    (handler net body).outcome = .pending ∧
    (∀ e ∈ (handler net body).events, e.isSend = false) ∧
    (∀ net2 r, submission net2 body = some (.error r) →
      (handler net2 body).outcome = .threw (.lib r) ∧
      (handler net2 body).outcome ≠ (handler net body).outcome) := by
  obtain ⟨s, hs, hh⟩ := handler_configured net body hid
  rw [submission_configured net body s hs] at hsub
  simp only [Option.some.injEq] at hsub
  have hrun : handler net body =
      ⟨[.readAmount (getField body "amount"),
        .bidCall ⟨⟨contractAddress, s⟩, getField body "amount", 1000000⟩,
        .waitStart tx], .pending⟩ := by
    rw [hh]; simp [afterSwitch, hsub, hw]
  refine ⟨by rw [hrun], ?_, ?_⟩
  · intro e he
    rw [hrun] at he
    simp at he
    rcases he with he | he | he <;> subst he <;> rfl
  · intro net2 r hrej
    obtain ⟨s2, hs2, hh2⟩ := handler_configured net2 body hid
    rw [submission_configured net2 body s2 hs2] at hrej
    simp only [Option.some.injEq] at hrej
    have hout : (handler net2 body).outcome = .threw (.lib r) := by
      rw [hh2]; simp [afterSwitch, hrej]
    refine ⟨hout, ?_⟩
    rw [hout, hrun]
    simp

/-- Identifier "1", amount 5, accepted with hash 0xabc, wait never settling. -/
theorem unconfirmed_wait_stays_pending_witness :
    configured (getField [("userNumber", .str "1"), ("amount", .num 5)] "userNumber") ∧
    submission (acceptingNet "0xabc" .never)
      [("userNumber", .str "1"), ("amount", .num 5)] = some (.ok ⟨"0xabc"⟩) ∧
    (acceptingNet "0xabc" .never).wait ⟨"0xabc"⟩ = .never ∧
    (handler (acceptingNet "0xabc" .never)
      [("userNumber", .str "1"), ("amount", .num 5)]).outcome = .pending ∧
    (∀ e ∈ (handler (acceptingNet "0xabc" .never)
      [("userNumber", .str "1"), ("amount", .num 5)]).events, e.isSend = false) ∧
    (∀ net2 r, submission net2 [("userNumber", .str "1"), ("amount", .num 5)]
        = some (.error r) →
      (handler net2 [("userNumber", .str "1"), ("amount", .num 5)]).outcome
        = .threw (.lib r) ∧
      (handler net2 [("userNumber", .str "1"), ("amount", .num 5)]).outcome ≠
        (handler (acceptingNet "0xabc" .never)
          [("userNumber", .str "1"), ("amount", .num 5)]).outcome) :=
  ⟨by decide, rfl, rfl,
   unconfirmed_wait_stays_pending (acceptingNet "0xabc" .never)
     [("userNumber", .str "1"), ("amount", .num 5)] ⟨"0xabc"⟩
     (by decide) rfl rfl⟩

/-- C8, evaluated on scenario B with amount 5: after sending "unknown user" the
handler goes on, reads the amount, and the run ends with the error raised by
the member access on the undefined `bidding`. -/
theorem unknown_user_not_terminal :
    handler (acceptingNet "0xabc" .mined)
        [("userNumber", .str "9"), ("amount", .num 5)] =
      ⟨[.send [.str "unknown user"], .readAmount (.num 5)],
       .threw (.typeError undefinedBidMessage)⟩ := by
  decide

/-! ## Order and number of effects -/

theorem send_count_configured (net : Network) (body : Body)
    (hid : configured (getField body "userNumber")) :
    (handler net body).events.countP Event.isSend ≤ 1 := by
  obtain ⟨s, _, hh⟩ := handler_configured net body hid
  rw [hh]
  rcases afterSwitch_some net body ⟨contractAddress, s⟩ with
    ⟨r, _, e⟩ | ⟨tx, _, _, e⟩ | ⟨tx, r, _, _, e⟩ | ⟨tx, _, _, e⟩ <;>
  · rw [e]
    simp [List.countP_cons, Event.isSend]

/-- C9: for every configured identifier, amount and network, the bid entry
point is invoked exactly once; the wait is started at most once, and only after
a bid call that the network accepted with that transaction; a response is sent
at most once, and only after a wait that completed. -/
theorem bid_lifecycle_in_order (net : Network) (body : Body)
    (hid : configured (getField body "userNumber")) :
    (handler net body).events.countP Event.isBidCall = 1 ∧
    (handler net body).events.countP Event.isWaitStart ≤ 1 ∧
    (handler net body).events.countP Event.isSend ≤ 1 ∧
    (∀ tx, Event.waitStart tx ∈ (handler net body).events →
      ∃ c pre post, (handler net body).events = pre ++ .waitStart tx :: post ∧
        Event.bidCall c ∈ pre ∧ net.bid c = .ok tx) ∧
    (∀ args, Event.send args ∈ (handler net body).events →
      ∃ tx pre post, (handler net body).events = pre ++ .send args :: post ∧
        Event.waitStart tx ∈ pre ∧ net.wait tx = .mined) := by
  obtain ⟨s, _, hh⟩ := handler_configured net body hid
  rw [hh]
  rcases afterSwitch_some net body ⟨contractAddress, s⟩ with
    ⟨r, hb, e⟩ | ⟨tx, hb, hw, e⟩ | ⟨tx, r, hb, hw, e⟩ | ⟨tx, hb, hw, e⟩
  · rw [e]
    refine ⟨rfl, by simp [List.countP_cons, Event.isWaitStart],
      by simp [List.countP_cons, Event.isSend], ?_, ?_⟩
    · intro t ht; simp at ht
    · intro a ha; simp at ha
  · rw [e]
    refine ⟨rfl, by simp [List.countP_cons, Event.isWaitStart],
      by simp [List.countP_cons, Event.isSend], ?_, ?_⟩
    · intro t ht
      simp at ht
      subst ht
      exact ⟨_, [.readAmount (getField body "amount"),
        .bidCall ⟨⟨contractAddress, s⟩, getField body "amount", 1000000⟩], [],
        rfl, by simp, hb⟩
    · intro a ha; simp at ha
  · rw [e]
    refine ⟨rfl, by simp [List.countP_cons, Event.isWaitStart],
      by simp [List.countP_cons, Event.isSend], ?_, ?_⟩
    · intro t ht
      simp at ht
      subst ht
      exact ⟨_, [.readAmount (getField body "amount"),
        .bidCall ⟨⟨contractAddress, s⟩, getField body "amount", 1000000⟩], [],
        rfl, by simp, hb⟩
    · intro a ha; simp at ha
  · rw [e]
    refine ⟨rfl, by simp [List.countP_cons, Event.isWaitStart],
      by simp [List.countP_cons, Event.isSend], ?_, ?_⟩
    · intro t ht
      simp at ht
      subst ht
      exact ⟨_, [.readAmount (getField body "amount"),
        .bidCall ⟨⟨contractAddress, s⟩, getField body "amount", 1000000⟩], _,
        rfl, by simp, hb⟩
    · intro a ha
      simp at ha
      subst ha
      exact ⟨tx, [.readAmount (getField body "amount"),
        .bidCall ⟨⟨contractAddress, s⟩, getField body "amount", 1000000⟩,
        .waitStart tx, .log [.str "hash is ", .str tx.hash]], [],
        rfl, by simp, hw⟩

/-- Scenario A against a network that accepts and confirms. -/
theorem bid_lifecycle_in_order_witness :
    configured (getField
      [("userNumber", .str "1"), ("amount", .num 500000000000000000)] "userNumber") ∧
    (handler (acceptingNet "0xabc" .mined)
      [("userNumber", .str "1"), ("amount", .num 500000000000000000)]).events.countP
        Event.isBidCall = 1 :=
  ⟨by decide,
   (bid_lifecycle_in_order (acceptingNet "0xabc" .mined)
     [("userNumber", .str "1"), ("amount", .num 500000000000000000)] (by decide)).1⟩

/-- C10: for every request and every network the handler calls `res.send` at
most once; for an unknown identifier the only send is "unknown user", the
success response is never sent, no bid call is made, and the run ends with the
error raised by the member access on the undefined `bidding`. -/
theorem at_most_one_response (net : Network) (body : Body) :
    (handler net body).events.countP Event.isSend ≤ 1 ∧
    (¬ configured (getField body "userNumber") →
      (handler net body).events.filter Event.isSend = [.send [.str "unknown user"]] ∧
      (∀ h, Event.send [.str "bidding successful. tx hash: ", .str h]
        ∉ (handler net body).events) ∧
      (∀ c, Event.bidCall c ∉ (handler net body).events) ∧
      (handler net body).outcome = .threw (.typeError undefinedBidMessage)) := by
  constructor
  · by_cases hid : configured (getField body "userNumber")
    · exact send_count_configured net body hid
    · rw [handler_unknown net body hid]
      simp [List.countP_cons, Event.isSend]
  · intro hid
    rw [handler_unknown net body hid]
    refine ⟨rfl, ?_, ?_, rfl⟩
    · intro h; simp
    · intro c; simp

/-- Scenario B: identifier "9". -/
theorem at_most_one_response_witness :
    ¬ configured (getField [("userNumber", .str "9"), ("amount", .num 5)] "userNumber") ∧
    (handler (acceptingNet "0xabc" .mined)
      [("userNumber", .str "9"), ("amount", .num 5)]).events.filter Event.isSend
        = [.send [.str "unknown user"]] :=
  ⟨by decide,
   ((at_most_one_response (acceptingNet "0xabc" .mined)
     [("userNumber", .str "9"), ("amount", .num 5)]).2 (by decide)).1⟩

end BiddingWar
